import Mathlib

/-!
# Verification of the ingestion/normalization pipeline of `initialize.py`

This file is a shallow embedding, in Lean 4, of the ingestion pipeline found in
`initialize.py` of the company-inner-search application: the per-file dispatch
(`file_load`), the two CSV-to-text synthesizers (`create_employee_document`,
`create_generic_csv_document`), the text normalizer (`adjust_string`), the web
loading phase of `load_data_sources`, and the chunk-or-bypass stage of
`initialize_retriever` (modelled as `init_retriever`).

External collaborators (pandas, the langchain text splitter, the cp932 codec,
`unicodedata.normalize`) are modelled at their interface: a pandas table is a
list of rows of optional string cells (`none` models NaN / missing), the text
splitter is an arbitrary function `String → List String`, NFC normalization is
an abstract function whose relevant Unicode facts appear as explicit
hypotheses, and `encode("cp932", "ignore").decode("cp932")` is the filter that
drops characters outside the cp932 repertoire.

Machine-level string helpers (`stripChars`, `lowerChar`, `leCL`, ...) are
written over `List Char` so that every definition evaluates inside the kernel.
-/

/-! ## Character and string utilities -/

/-- Model of Python's `str.strip()`: drop leading and trailing whitespace. -/
def stripChars (cs : List Char) : List Char :=
  ((cs.dropWhile Char.isWhitespace).reverse.dropWhile Char.isWhitespace).reverse

/-- ASCII lower-casing of a single character, as used by `str.lower()` on
file extensions. -/
def lowerChar (c : Char) : Char :=
  if 'A' ≤ c ∧ c ≤ 'Z' then Char.ofNat (c.toNat + 32) else c

/-- Code-point lexicographic `≤` on character lists: the order Python uses to
compare strings, hence the order of pandas `groupby` keys. -/
def leCL : List Char → List Char → Bool
  | [], _ => true
  | _ :: _, [] => false
  | a :: as, b :: bs =>
    if a.toNat < b.toNat then true
    else if b.toNat < a.toNat then false
    else leCL as bs

/-- Does `cs` start with `needle`? -/
def startsWithCL : List Char → List Char → Bool
  | [], _ => true
  | _ :: _, [] => false
  | a :: as, b :: bs => a == b && startsWithCL as bs

/-- Does `needle` occur as a contiguous substring of the second list?
Models Python's `needle in haystack`. -/
def containsCL (needle : List Char) : List Char → Bool
  | [] => needle.isEmpty
  | b :: bs => startsWithCL needle (b :: bs) || containsCL needle bs

/-- Model of `os.path.basename`: the part of the path after the last `/`. -/
def basenameStr (p : String) : String :=
  String.mk ((p.data.reverse.takeWhile (fun c => !(c == '/'))).reverse)

/-- Model of `os.path.splitext(path)[1].lower()`: the lowercased extension of
the final path component, including its dot; `""` when the component has no
dot after its (ignored) leading dots. -/
def splitextLower (p : String) : String :=
  let base := (p.data.reverse.takeWhile (fun c => !(c == '/'))).reverse
  let stem := base.dropWhile (fun c => c == '.')
  if stem.any (fun c => c == '.') then
    String.mk ('.' :: ((stem.reverse.takeWhile (fun c => !(c == '.'))).reverse.map lowerChar))
  else ""

/-! ## Data model -/

/-- A Python scalar as it appears in document metadata: a string or an int. -/
inductive PyVal where
  | str : String → PyVal
  | int : Int → PyVal
deriving DecidableEq

/-- A langchain `Document`: page content plus a metadata mapping, the mapping
modelled as an association list. -/
structure Document where
  page_content : String
  metadata : List (String × PyVal)
deriving DecidableEq

/-- A pandas DataFrame as `file_load` consumes it: named columns and rows of
cells, where a cell is `none` for NaN/missing and `some v` for a value whose
`str()` rendering is `v`. -/
structure DataFrame where
  columns : List String
  rows : List (List (Option String))
deriving DecidableEq

/-- A cell is present when it is non-null and its string form is non-empty
after trimming: `pd.notna(row[col]) and str(row[col]).strip()`. -/
def cellPresent : Option String → Bool
  | none => false
  | some v => !(stripChars v.data).isEmpty

/-! ## Generic CSV synthesizer (`create_generic_csv_document`) -/

/-- The `col: value` pairs of one row kept by the generic synthesizer:
only present cells, rendered with the raw (untrimmed) value. -/
def rowInfoG (cols : List String) (r : List (Option String)) : List String :=
  (cols.zip r).filterMap (fun p => match p.2 with
    | some v => if (stripChars v.data).isEmpty then none else some (p.1 ++ ": " ++ v)
    | none => none)

/-- The shared shape of the row-listing loops: `for index, row in iterrows()`
with 0-based `index`, emitting `render (index+1) details` only when the row's
detail list is non-empty. -/
def numberedAux (detail : List (Option String) → List String)
    (render : Nat → List String → String) : Nat → List (List (Option String)) → List String
  | _, [] => []
  | i, r :: rs =>
    (if (detail r).isEmpty then [] else [render (i + 1) (detail r)])
      ++ numberedAux detail render (i + 1) rs

/-- The numbers carried by the lines `numberedAux` emits. -/
def numberedNums (detail : List (Option String) → List String) :
    Nat → List (List (Option String)) → List Nat
  | _, [] => []
  | i, r :: rs =>
    (if (detail r).isEmpty then [] else [i + 1]) ++ numberedNums detail (i + 1) rs

/-- The per-row lines of the generic synthesizer's データ内容 section. -/
def genericDataLines (df : DataFrame) : List String :=
  numberedAux (rowInfoG df.columns)
    (fun n d => toString n ++ ". " ++ String.intercalate ", " d) 0 df.rows

/-- The numbers of the emitted per-row lines of the generic synthesizer. -/
def genericRowNumbers (df : DataFrame) : List Nat :=
  numberedNums (rowInfoG df.columns) 0 df.rows

/-- The `content_parts` list built by `create_generic_csv_document`. -/
def genericParts (df : DataFrame) (file_name : String) : List String :=
  ["【" ++ file_name ++ "】",
   "データ件数: " ++ toString df.rows.length ++ "件",
   "項目数: " ++ toString df.columns.length ++ "項目",
   "",
   "【データ項目】",
   String.intercalate ", " df.columns,
   "",
   "【データ内容】"]
  ++ genericDataLines df

/-- `create_generic_csv_document(df, file_name)`. -/
def create_generic_csv_document (df : DataFrame) (file_name : String) : String :=
  String.intercalate "\n" (genericParts df file_name)

/-! ## Roster synthesizer (`create_employee_document`) -/

/-- Index of a column name in the header, or `none`. -/
def colIndex (cols : List String) (c : String) : Option Nat :=
  match cols with
  | [] => none
  | x :: xs => if x = c then some 0 else (colIndex xs c).map (· + 1)

/-- Index of the department column 従業員区分, when the table has it. -/
def deptColIdx (df : DataFrame) : Option Nat :=
  colIndex df.columns "従業員区分"

/-- The department value of a row: `none` when the table has no department
column or the row's department cell is NaN (pandas drops both from grouping). -/
def deptOf (df : DataFrame) (r : List (Option String)) : Option String :=
  match deptColIdx df with
  | none => none
  | some i =>
    match r[i]? with
    | some c => c
    | none => none

/-- First-occurrence deduplication, the order `Series.unique()` uses. -/
def uniqFirst : List String → List String
  | [] => []
  | x :: xs => x :: (uniqFirst xs).filter (fun y => !(y == x))

/-- Insert into a ≤-sorted list of strings (code-point order). -/
def insertStr (x : String) : List String → List String
  | [] => [x]
  | y :: ys => if leCL x.data y.data then x :: y :: ys else y :: insertStr x ys

/-- Insertion sort by code-point order: the ascending key order of
`DataFrame.groupby`. -/
def sortStrs : List String → List String
  | [] => []
  | x :: xs => insertStr x (sortStrs xs)

/-- The non-null department values of the table, in row order. -/
def deptVals (df : DataFrame) : List String :=
  df.rows.filterMap (deptOf df)

/-- Distinct departments in order of first appearance
(`df['従業員区分'].dropna().unique()`). -/
def uniqueDepts (df : DataFrame) : List String :=
  uniqFirst (deptVals df)

/-- The group keys of `df.groupby('従業員区分')`: distinct non-null department
values in ascending order. -/
def deptKeysSorted (df : DataFrame) : List String :=
  sortStrs (uniqueDepts df)

/-- The rows of one department group, in original row order. -/
def deptMembers (df : DataFrame) (k : String) : List (List (Option String)) :=
  df.rows.filter (fun r => decide (deptOf df r = some k))

/-- All present `col:value` pairs of a row (no space after the colon, as in
the roster synthesizer). -/
def empDetailAll (cols : List String) (r : List (Option String)) : List String :=
  (cols.zip r).filterMap (fun p => match p.2 with
    | some v => if (stripChars v.data).isEmpty then none else some (p.1 ++ ":" ++ v)
    | none => none)

/-- Present `col:value` pairs of a row excluding the department column itself
(section 2 of the roster synthesizer). -/
def empDetailNoDept (cols : List String) (r : List (Option String)) : List String :=
  (cols.zip r).filterMap (fun p => match p.2 with
    | some v =>
      if (stripChars v.data).isEmpty then none
      else if p.1 = "従業員区分" then none
      else some (p.1 ++ ":" ++ v)
    | none => none)

/-- The lines one department group contributes to section 2: header with the
member count, the 所属 line, then the numbered member lines. -/
def deptSectionLines (df : DataFrame) (k : String) : List String :=
  ["\n■ " ++ k ++ "部門 (" ++ toString (deptMembers df k).length ++ "名)",
   k ++ "に所属している従業員一覧:"]
  ++ numberedAux (empDetailNoDept df.columns)
       (fun n d => "  " ++ toString n ++ ". " ++ String.intercalate ", " d) 0
       (deptMembers df k)

/-- The rows whose department is exactly 人事部 (section 3). -/
def hrRows (df : DataFrame) : List (List (Option String)) :=
  df.rows.filter (fun r => decide (deptOf df r = some "人事部"))

/-- The fixed base keyword vocabulary of section 5. -/
def baseKeywords : List String :=
  ["従業員情報", "社員名簿", "人事部", "社員一覧", "従業員一覧",
   "社員データ", "人事データ", "社員情報", "従業員データベース",
   "社員リスト", "従業員リスト", "人事情報", "社員台帳"]

/-- Section 5's keyword list: the base vocabulary extended, when the
department column exists, with four morphological variants per department. -/
def keywordsOf (df : DataFrame) : List String :=
  baseKeywords ++
    (if (deptColIdx df).isSome then
      (uniqueDepts df).flatMap
        (fun dept => [dept, dept ++ "部", dept ++ "所属", dept ++ "の従業員"])
    else [])

/-- The `content_parts` list built by `create_employee_document`. -/
def employeeParts (df : DataFrame) (file_name : String) : List String :=
  ["【" ++ file_name ++ " - 社員名簿・従業員一覧・人事データベース】",
   "全社員数: " ++ toString df.rows.length ++ "名の従業員情報",
   ""]
  ++ (if (deptColIdx df).isSome then
        ["【部署別従業員詳細情報】"]
        ++ (deptKeysSorted df).flatMap (deptSectionLines df)
        ++ [""]
      else [])
  ++ (if (hrRows df).isEmpty then []
      else
        ["【人事部所属従業員の完全一覧】",
         "人事部には" ++ toString (hrRows df).length ++ "名の従業員が所属しています。",
         "人事部メンバー詳細:"]
        ++ numberedAux (empDetailAll df.columns)
             (fun n d => "人事部員" ++ toString n ++ ": " ++ String.intercalate ", " d) 0
             (hrRows df)
        ++ [""])
  ++ ["【全従業員統合データ】", "社内の全従業員情報:"]
  ++ numberedAux (empDetailAll df.columns)
       (fun n d => "社員" ++ toString n ++ ": " ++ String.intercalate ", " d) 0 df.rows
  ++ ["\n【検索最適化キーワード】",
      "関連キーワード: " ++ String.intercalate ", " (keywordsOf df)]

/-- `create_employee_document(df, file_name)`. -/
def create_employee_document (df : DataFrame) (file_name : String) : String :=
  String.intercalate "\n" (employeeParts df file_name)

/-! ## Format extractor registry and per-file loading (`file_load`) -/

/-- The callability of a registered loader value: `callable(loader_func)`. -/
inductive Capability where
  | callable
  | notCallable
deriving DecidableEq

/-- One file of the walked tree together with what the external world would do
for it: the outcome of `pd.read_csv(path)` and of `loader_func(path).load()`,
each either documents or a raised exception's message. -/
structure SrcFile where
  path : String
  csvResult : Except String DataFrame
  loadResult : Except String (List Document)

/-- `f"Error loading CSV file '{path}': {e}"`. -/
def csvErrMsg (path e : String) : String :=
  "Error loading CSV file '" ++ path ++ "': " ++ e

/-- `f"Error loading file '{path}': {e}"`. -/
def fileErrMsg (path e : String) : String :=
  "Error loading file '" ++ path ++ "': " ++ e

/-- `f"Loader for extension '{ext}' is not callable for file '{path}'"`. -/
def loaderErrMsg (ext path : String) : String :=
  "Loader for extension '" ++ ext ++ "' is not callable for file '" ++ path ++ "'"

/-- The metadata attached to the single Document built from a CSV file. -/
def csvMeta (path : String) (total_rows : Nat) : List (String × PyVal) :=
  [("source", PyVal.str path), ("page", PyVal.int 1),
   ("file_type", PyVal.str "csv"), ("total_rows", PyVal.int total_rows)]

/-- The filename heuristic selecting the roster synthesizer:
`"社員名簿" in file_name or "従業員" in file_name`. -/
def rosterNamed (file_name : String) : Bool :=
  containsCL "社員名簿".data file_name.data || containsCL "従業員".data file_name.data

/-- The single Document `file_load` builds from a successfully read CSV:
synthesized content chosen by the filename heuristic, plus `csvMeta`. -/
def csvDocument (df : DataFrame) (path : String) : Document :=
  Document.mk
    (if rosterNamed (basenameStr path) then create_employee_document df (basenameStr path)
     else create_generic_csv_document df (basenameStr path))
    (csvMeta path df.rows.length)

/-- Dict update-or-add: `metadata[key] = value`. -/
def setMeta (m : List (String × PyVal)) (k : String) (v : PyVal) :
    List (String × PyVal) :=
  if m.any (fun q => q.1 == k) then
    m.map (fun q => if q.1 == k then (k, v) else q)
  else m ++ [(k, v)]

/-- `file_load(path, docs_all)`: returns the documents it appends and the
error-log lines it emits.  Unregistered extensions are skipped silently; a
registered `.csv` is special-cased (one synthesized Document, errors caught
per file); other registered extensions require a callable loader, whose
per-file failures are caught and logged; `.pdf` pages are renumbered 1-based
and `.txt` gets `page = 1`. -/
def file_load (reg : List (String × Capability)) (f : SrcFile) :
    List Document × List String :=
  let fe := splitextLower f.path
  match List.lookup fe reg with
  | none => ([], [])
  | some cap =>
    if fe = ".csv" then
      match f.csvResult with
      | Except.ok df => ([csvDocument df f.path], [])
      | Except.error e => ([], [csvErrMsg f.path e])
    else
      match cap with
      | Capability.callable =>
        match f.loadResult with
        | Except.ok docs =>
          let docs2 :=
            if fe = ".pdf" then
              docs.enum.map (fun q =>
                { q.2 with metadata := setMeta q.2.metadata "page" (PyVal.int (q.1 + 1)) })
            else if fe = ".txt" then
              docs.map (fun d => { d with metadata := setMeta d.metadata "page" (PyVal.int 1) })
            else docs
          (docs2, [])
        | Except.error e => ([], [fileErrMsg f.path e])
      | Capability.notCallable => ([], [loaderErrMsg fe f.path])

/-- The filesystem phase of the walk: `file_load` over the leaves in traversal
order, accumulating appended documents and logged errors. -/
def runFiles (reg : List (String × Capability)) : List SrcFile → List Document × List String
  | [] => ([], [])
  | f :: fs =>
    let r := file_load reg f
    let rest := runFiles reg fs
    (r.1 ++ rest.1, r.2 ++ rest.2)

/-! ## Web phase and `load_data_sources` -/

/-- The web loop of `load_data_sources`: each entry is the outcome of
`WebBaseLoader(url).load()`.  The loop is unguarded, so the first raised
exception propagates and the remaining URLs are never fetched. -/
def load_web_docs : List (Except String (List Document)) → Except String (List Document)
  | [] => Except.ok []
  | r :: rs =>
    match r with
    | Except.error e => Except.error e
    | Except.ok ds =>
      match load_web_docs rs with
      | Except.error e => Except.error e
      | Except.ok rest => Except.ok (ds ++ rest)

/-- `load_data_sources()`: filesystem documents followed by web documents; a
web exception propagates out of the whole function. -/
def load_data_sources (reg : List (String × Capability)) (files : List SrcFile)
    (web : List (Except String (List Document))) : Except String (List Document) :=
  match load_web_docs web with
  | Except.error e => Except.error e
  | Except.ok ws => Except.ok ((runFiles reg files).1 ++ ws)

/-! ## Text normalizer (`adjust_string`) -/

/-- The platform-dependent ingredients of `adjust_string`: whether
`sys.platform` starts with `"win"`, the external `unicodedata.normalize('NFC', ·)`,
and membership in the cp932 repertoire. -/
structure TextNorm where
  isWin : Bool
  nfc : String → String
  cp932able : Char → Bool

/-- `s.encode("cp932", "ignore").decode("cp932")`: drop every character the
cp932 codec cannot represent, keep the rest. -/
def cpFilter (N : TextNorm) (s : String) : String :=
  String.mk (s.data.filter N.cp932able)

/-- The string path of `adjust_string`: on Windows, NFC-normalize then drop
non-cp932 characters; elsewhere the string passes through unchanged. -/
def adjStr (N : TextNorm) (s : String) : String :=
  if N.isWin then cpFilter N (N.nfc s) else s

/-- `adjust_string(s)`: non-strings pass through unchanged; strings go through
`adjStr`. -/
def adjust_string (N : TextNorm) : PyVal → PyVal
  | PyVal.str s => PyVal.str (adjStr N s)
  | v => v

/-! ## The retriever pipeline (`initialize_retriever`) -/

/-- The in-place normalization loop: `doc.page_content = adjust_string(...)`
and `doc.metadata[key] = adjust_string(doc.metadata[key])` for every key. -/
def normalizeDoc (N : TextNorm) (d : Document) : Document :=
  { page_content := adjStr N d.page_content,
    metadata := d.metadata.map (fun q => (q.1, adjust_string N q.2)) }

/-- Normalization of every loaded document. -/
def normalizeAll (N : TextNorm) (docs : List Document) : List Document :=
  docs.map (normalizeDoc N)

/-- The `final_docs` loop: a document whose `file_type` metadata equals
`"csv"` is appended whole; any other document is split and each chunk becomes
a fresh Document carrying a copy of the metadata, with `page` re-set to the
parent's `page` value when the parent had one.  `split` stands for
`CharacterTextSplitter(...).split_text`. -/
def chunkStage (split : String → List String) : List Document → List Document
  | [] => []
  | doc :: rest =>
    (if List.lookup "file_type" doc.metadata = some (PyVal.str "csv") then [doc]
     else
       (split doc.page_content).map (fun c =>
         { page_content := c,
           metadata :=
             match List.lookup "page" doc.metadata with
             | some p => setMeta doc.metadata "page" p
             | none => doc.metadata }))
    ++ chunkStage split rest

/-- `_get_secret(key, default)`: Streamlit secrets, then the environment,
then the default. -/
def get_secret (secrets env : List (String × String)) (k : String)
    (dflt : Option String) : Option String :=
  match List.lookup k secrets with
  | some v => some v
  | none =>
    match List.lookup k env with
    | some v => some v
    | none => dflt

/-- Python truthiness test `if not openai_api_key:` on the resolved key. -/
def falsyKey : Option String → Bool
  | none => true
  | some s => decide (s = "")

/-- The error message raised when no embedding key resolves. -/
def keyErrMsg : String :=
  "OPENAI_API_KEY が見つかりません。Streamlit Cloud の Secrets か .env に設定してください。"

/-- The observable phases of `initialize_retriever`, in execution order. -/
inductive Step where
  | loadSources
  | createEmbeddings
  | buildIndex
deriving DecidableEq

/-- Model of `initialize_retriever`: `load_data_sources()` runs first (its
result is `loaded`), every document is normalized in place, and only then is
the embedding key checked: a falsy key raises `keyErrMsg`; otherwise the
embeddings are created, the chunk-or-bypass loop builds `final_docs`, and the
vector store is built.  The `Step` trace records which phases ran. -/
def init_retriever (N : TextNorm) (split : String → List String)
    (key : Option String) (loaded : List Document) :
    List Step × Except String (List Document) :=
  let docs_all := normalizeAll N loaded
  if falsyKey key then
    ([Step.loadSources], Except.error keyErrMsg)
  else
    ([Step.loadSources, Step.createEmbeddings, Step.buildIndex],
     Except.ok (chunkStage split docs_all))

/-! ## Lemmas about the numbered row listings -/

section NumberedLemmas

variable (detail : List (Option String) → List String)
variable (render : Nat → List String → String)

theorem numberedAux_length (i : Nat) (rows : List (List (Option String))) :
    (numberedAux detail render i rows).length = (numberedNums detail i rows).length := by
  induction rows generalizing i with
  | nil => rfl
  | cons r rs ih =>
    by_cases h : (detail r).isEmpty <;> simp [numberedAux, numberedNums, h, ih]

theorem numberedNums_length (i : Nat) (rows : List (List (Option String))) :
    (numberedNums detail i rows).length = rows.countP (fun r => !(detail r).isEmpty) := by
  induction rows generalizing i with
  | nil => rfl
  | cons r rs ih =>
    by_cases h : (detail r).isEmpty
    · simp [numberedNums, h, List.countP_cons, ih (i + 1)]
    · simp [numberedNums, h, List.countP_cons, ih (i + 1)]

theorem numberedNums_bounds (i : Nat) (rows : List (List (Option String))) :
    ∀ n ∈ numberedNums detail i rows, i + 1 ≤ n ∧ n ≤ i + rows.length := by
  induction rows generalizing i with
  | nil => intro n h; simp [numberedNums] at h
  | cons r rs ih =>
    intro n h
    by_cases he : (detail r).isEmpty
    · simp only [numberedNums, he, if_pos, List.nil_append] at h
      have := ih (i + 1) n h
      simp only [List.length_cons]
      omega
    · simp only [numberedNums, he, if_neg, Bool.false_eq_true, not_false_iff,
        List.singleton_append, List.mem_cons] at h
      rcases h with h | h
      · subst h; simp only [List.length_cons]; omega
      · have := ih (i + 1) n h
        simp only [List.length_cons]
        omega

theorem numberedNums_pairwise (i : Nat) (rows : List (List (Option String))) :
    List.Pairwise (· < ·) (numberedNums detail i rows) := by
  induction rows generalizing i with
  | nil => simp [numberedNums]
  | cons r rs ih =>
    by_cases he : (detail r).isEmpty
    · simpa [numberedNums, he] using ih (i + 1)
    · have hch : List.Pairwise (· < ·) ((i + 1) :: numberedNums detail (i + 1) rs) := by
        refine List.pairwise_cons.mpr ⟨?_, ih (i + 1)⟩
        intro b hb
        have := numberedNums_bounds detail (i + 1) rs b hb
        omega
      simpa [numberedNums, he] using hch

theorem numberedNums_complete (rows : List (List (Option String)))
    (hall : ∀ r ∈ rows, (detail r).isEmpty = false) :
    ∀ i, numberedNums detail i rows = List.range' (i + 1) rows.length := by
  induction rows with
  | nil => intro i; rfl
  | cons r rs ih =>
    intro i
    have h0 : (detail r).isEmpty = false := hall r (List.mem_cons_self _ _)
    have ih' := ih (fun x hx => hall x (List.mem_cons_of_mem _ hx)) (i + 1)
    simp only [numberedNums, h0, Bool.false_eq_true, if_neg, not_false_iff,
      List.singleton_append, List.length_cons, ih']
    rfl

end NumberedLemmas

/-! ## Generic list lemmas -/

theorem lookup_mem {β : Type} {m : List (String × β)} {k : String} {v : β}
    (h : List.lookup k m = some v) : ∃ q ∈ m, q.2 = v := by
  induction m with
  | nil => cases h
  | cons q m ih =>
    obtain ⟨a, b⟩ := q
    simp only [List.lookup] at h
    cases hk : (k == a) with
    | true =>
      rw [hk] at h
      simp only [Option.some.injEq] at h
      exact ⟨(a, b), List.mem_cons_self _ _, h⟩
    | false =>
      rw [hk] at h
      obtain ⟨q, hq, hv⟩ := ih h
      exact ⟨q, List.mem_cons_of_mem _ hq, hv⟩

theorem runFiles_append (reg : List (String × Capability)) (xs ys : List SrcFile) :
    runFiles reg (xs ++ ys)
      = ((runFiles reg xs).1 ++ (runFiles reg ys).1,
         (runFiles reg xs).2 ++ (runFiles reg ys).2) := by
  induction xs with
  | nil => simp [runFiles]
  | cons f fs ih => simp [runFiles, ih, List.append_assoc]

theorem chunkStage_append (split : String → List String) (xs ys : List Document) :
    chunkStage split (xs ++ ys) = chunkStage split xs ++ chunkStage split ys := by
  induction xs with
  | nil => rfl
  | cons d ds ih => simp [chunkStage, ih, List.append_assoc]

theorem chunkStage_cons_csv (split : String → List String) (d : Document)
    (rest : List Document)
    (h : List.lookup "file_type" d.metadata = some (PyVal.str "csv")) :
    chunkStage split (d :: rest) = d :: chunkStage split rest := by
  simp only [chunkStage, if_pos h, List.singleton_append]

theorem sum_map_add (u v : String → Nat) (keys : List String) :
    (keys.map (fun k => u k + v k)).sum = (keys.map u).sum + (keys.map v).sum := by
  induction keys with
  | nil => rfl
  | cons k ks ih => simp [ih]; omega

theorem sum_indicator (p : String → Bool) (keys : List String) :
    (keys.map (fun k => if p k then 1 else 0)).sum = keys.countP p := by
  induction keys with
  | nil => rfl
  | cons k ks ih =>
    by_cases h : p k
    · simp [h, List.countP_cons, ih]
      omega
    · simp [h, List.countP_cons, ih]

theorem countP_eq_one_of_nodup (b : String) (keys : List String)
    (hnd : keys.Nodup) (hb : b ∈ keys) :
    keys.countP (fun k => decide (b = k)) = 1 := by
  induction keys with
  | nil => cases hb
  | cons k ks ih =>
    rw [List.countP_cons]
    rcases List.mem_cons.mp hb with h | h
    · subst h
      have hnotin : b ∉ ks := (List.nodup_cons.mp hnd).1
      have hz : ks.countP (fun x => decide (b = x)) = 0 := by
        rw [List.countP_eq_zero]
        intro a ha
        simp only [decide_eq_true_eq]
        intro he; exact hnotin (he ▸ ha)
      simp [hz]
    · have hne : b ≠ k := by
        intro he; exact (List.nodup_cons.mp hnd).1 (he ▸ h)
      rw [ih (List.nodup_cons.mp hnd).2 h]
      simp [hne]

/-- Summing the sizes of the groups of `l` over a duplicate-free, covering key
list equals the number of elements carrying a key at all. -/
theorem sum_group_lengths {α : Type} (g : α → Option String) (keys : List String)
    (hnd : keys.Nodup) (l : List α)
    (hcov : ∀ a ∈ l, ∀ b, g a = some b → b ∈ keys) :
    (keys.map (fun k => (l.filter (fun a => decide (g a = some k))).length)).sum
      = l.countP (fun a => (g a).isSome) := by
  induction l with
  | nil => simp
  | cons a l ih =>
    have hcov' : ∀ x ∈ l, ∀ b, g x = some b → b ∈ keys :=
      fun x hx => hcov x (List.mem_cons_of_mem _ hx)
    have hfe : (fun k => (List.filter (fun x => decide (g x = some k)) (a :: l)).length)
        = fun k => (if g a = some k then 1 else 0)
            + (List.filter (fun x => decide (g x = some k)) l).length := by
      funext k
      by_cases h : g a = some k
      · simp [List.filter_cons, h]
        omega
      · simp [List.filter_cons, h]
    rw [hfe, sum_map_add, ih hcov', List.countP_cons]
    have hind : (keys.map (fun k => if g a = some k then 1 else 0)).sum
        = if (g a).isSome then 1 else 0 := by
      cases hg : g a with
      | none => simp
      | some b =>
        have hb : b ∈ keys := hcov a (List.mem_cons_self _ _) b hg
        rw [show (fun k => if (some b : Option String) = some k then (1 : Nat) else 0)
              = fun k => if decide (b = k) then 1 else 0 from by funext k; simp]
        rw [sum_indicator, countP_eq_one_of_nodup b keys hnd hb]
        rfl
    rw [hind]
    exact Nat.add_comm _ _

/-! ## Lemmas about `uniqFirst` and `sortStrs` -/

theorem mem_uniqFirst (a : String) : ∀ l : List String, a ∈ uniqFirst l ↔ a ∈ l := by
  intro l; induction l with
  | nil => simp [uniqFirst]
  | cons x xs ih =>
    simp only [uniqFirst, List.mem_cons, List.mem_filter]
    constructor
    · rintro (h | ⟨h, _⟩)
      · exact Or.inl h
      · exact Or.inr (ih.mp h)
    · rintro (h | h)
      · exact Or.inl h
      · by_cases hx : a = x
        · exact Or.inl hx
        · refine Or.inr ⟨ih.mpr h, ?_⟩
          simp [hx]

theorem nodup_uniqFirst : ∀ l : List String, (uniqFirst l).Nodup := by
  intro l; induction l with
  | nil => simp [uniqFirst]
  | cons x xs ih =>
    simp only [uniqFirst]
    refine List.nodup_cons.mpr ⟨?_, ih.filter _⟩
    intro hx
    have := (List.mem_filter.mp hx).2
    simp at this

theorem insertStr_perm (x : String) : ∀ l : List String, (insertStr x l).Perm (x :: l) := by
  intro l; induction l with
  | nil => exact List.Perm.refl _
  | cons y ys ih =>
    simp only [insertStr]
    by_cases h : leCL x.data y.data
    · rw [if_pos h]
    · rw [if_neg h]
      exact (ih.cons y).trans (List.Perm.swap x y ys)

theorem sortStrs_perm : ∀ l : List String, (sortStrs l).Perm l := by
  intro l; induction l with
  | nil => exact List.Perm.refl _
  | cons x xs ih => exact (insertStr_perm x (sortStrs xs)).trans (ih.cons x)

/-! ## Emptiness of the row detail lists -/

theorem filterMap_isEmpty_eq {α β : Type} (f : α → Option β) (l : List α) :
    (l.filterMap f).isEmpty = !(l.any (fun a => (f a).isSome)) := by
  induction l with
  | nil => rfl
  | cons a l ih =>
    cases hf : f a with
    | none => simp [List.filterMap_cons, hf, ih]
    | some b => simp [List.filterMap_cons, hf]

theorem rowInfoG_empty_iff (cols : List String) (r : List (Option String)) :
    (rowInfoG cols r).isEmpty = !((cols.zip r).any (fun p => cellPresent p.2)) := by
  rw [rowInfoG, filterMap_isEmpty_eq]
  have hfe : (fun (p : String × Option String) =>
        (match p.2 with
          | some v =>
            if (stripChars v.data).isEmpty then none else some (p.1 ++ ": " ++ v)
          | none => none).isSome)
      = fun p => cellPresent p.2 := by
    funext p
    obtain ⟨c, cell⟩ := p
    cases cell with
    | none => rfl
    | some v =>
      by_cases h : (stripChars v.data).isEmpty <;> simp [cellPresent, h]
  rw [hfe]

theorem genericDataLines_length (df : DataFrame) :
    (genericDataLines df).length
      = df.rows.countP (fun r => (df.columns.zip r).any (fun p => cellPresent p.2)) := by
  rw [genericDataLines, numberedAux_length, numberedNums_length]
  have hfe : (fun r => !(rowInfoG df.columns r).isEmpty)
      = fun r => (df.columns.zip r).any (fun p => cellPresent p.2) := by
    funext r
    rw [rowInfoG_empty_iff]
    exact Bool.not_not _
  rw [hfe]

/-! ## Lemmas about the text normalizer -/

theorem cpFilter_cpFilter (N : TextNorm) (s : String) :
    cpFilter N (cpFilter N s) = cpFilter N s := by
  simp [cpFilter, List.filter_filter, Bool.and_self]

theorem adjStr_idem (N : TextNorm)
    (h2 : ∀ s, N.nfc (cpFilter N (N.nfc s)) = cpFilter N (N.nfc s)) (s : String) :
    adjStr N (adjStr N s) = adjStr N s := by
  unfold adjStr
  cases hw : N.isWin with
  | false => simp
  | true => simp [h2 s, cpFilter_cpFilter]

theorem adjust_string_idem (N : TextNorm)
    (h2 : ∀ s, N.nfc (cpFilter N (N.nfc s)) = cpFilter N (N.nfc s)) :
    ∀ v : PyVal, adjust_string N (adjust_string N v) = adjust_string N v
  | PyVal.str s => by simp [adjust_string, adjStr_idem N h2 s]
  | PyVal.int _ => rfl

theorem setMeta_valFix (N : TextNorm) (m : List (String × PyVal)) (k : String) (v : PyVal)
    (hm : ∀ q ∈ m, adjust_string N q.2 = q.2) (hv : adjust_string N v = v) :
    ∀ q ∈ setMeta m k v, adjust_string N q.2 = q.2 := by
  intro q hq
  unfold setMeta at hq
  split at hq
  · rcases List.mem_map.mp hq with ⟨q₀, hq₀, he⟩
    by_cases hk : q₀.1 == k
    · rw [if_pos hk] at he
      subst he; exact hv
    · rw [if_neg hk] at he
      subst he; exact hm q₀ hq₀
  · rcases List.mem_append.mp hq with h | h
    · exact hm q h
    · simp at h; subst h; exact hv

theorem normalizeDoc_metaFix (N : TextNorm)
    (h2 : ∀ s, N.nfc (cpFilter N (N.nfc s)) = cpFilter N (N.nfc s)) (d : Document) :
    ∀ q ∈ (normalizeDoc N d).metadata, adjust_string N q.2 = q.2 := by
  intro q hq
  rcases List.mem_map.mp hq with ⟨q₀, _, he⟩
  subst he
  exact adjust_string_idem N h2 q₀.2

theorem chunkStage_fix (N : TextNorm) (split : String → List String)
    (h3 : ∀ s, adjStr N s = s → ∀ c ∈ split s, adjStr N c = c) :
    ∀ docs : List Document,
      (∀ d ∈ docs, adjStr N d.page_content = d.page_content
        ∧ ∀ q ∈ d.metadata, adjust_string N q.2 = q.2) →
      ∀ d ∈ chunkStage split docs,
        adjStr N d.page_content = d.page_content
        ∧ ∀ q ∈ d.metadata, adjust_string N q.2 = q.2 := by
  intro docs
  induction docs with
  | nil => intro _ d hd; simp [chunkStage] at hd
  | cons d₀ rest ih =>
    intro hall d hd
    have h₀ := hall d₀ (List.mem_cons_self _ _)
    have hrest := fun x hx => hall x (List.mem_cons_of_mem _ hx)
    simp only [chunkStage] at hd
    rcases List.mem_append.mp hd with h | h
    · by_cases hcsv : List.lookup "file_type" d₀.metadata = some (PyVal.str "csv")
      · rw [if_pos hcsv] at h
        simp at h; subst h; exact h₀
      · rw [if_neg hcsv] at h
        rcases List.mem_map.mp h with ⟨c, hc, he⟩
        subst he
        refine ⟨h3 _ h₀.1 c hc, ?_⟩
        dsimp only
        cases hp : List.lookup "page" d₀.metadata with
        | some p =>
          obtain ⟨q', hq', hv'⟩ := lookup_mem hp
          have hpfix : adjust_string N p = p := hv' ▸ h₀.2 q' hq'
          exact setMeta_valFix N _ _ _ h₀.2 hpfix
        | none => exact h₀.2
    · exact ih hrest d h

/-! ## Concrete fixtures used by witnesses and counterexamples -/

/-- A non-Windows platform: `adjust_string` is the identity. -/
def N0 : TextNorm := ⟨false, fun s => s, fun _ => true⟩

/-- A Windows-like platform whose NFC model is the identity and whose
repertoire is 7-bit ASCII. -/
def NW : TextNorm := ⟨true, fun s => s, fun c => decide (c.toNat < 128)⟩

/-- A trivial text splitter: one chunk holding the whole content. -/
def split0 : String → List String := fun s => [s]

/-- A three-row table whose middle row is blank after trimming. -/
def dfC2 : DataFrame := ⟨["品名"], [[some "りんご"], [some " "], [some "みかん"]]⟩

/-- An all-rows-present two-row table. -/
def dfW2 : DataFrame := ⟨["品名"], [[some "みかん"], [some "ぶどう"]]⟩

/-- A roster table in which one row's department cell is NaN. -/
def dfC3 : DataFrame :=
  ⟨["氏名", "従業員区分"], [[some "山田", some "営業部"], [some "佐藤", none]]⟩

/-- A roster table with two departments and no NaN departments. -/
def dfW3 : DataFrame :=
  ⟨["氏名", "従業員区分"],
   [[some "鈴木", some "総務部"], [some "高橋", some "営業部"], [some "伊藤", some "営業部"]]⟩

/-- The document the second configured URL would contribute. -/
def dWeb : Document := ⟨"ページ本文", [("source", PyVal.str "https://example.com/page2")]⟩

/-! ## C1 — credential check versus ingestion order -/

/--
C1, amended.  When no embedding key resolves through the layered lookup
(secret store, then environment, then the `None` default), the run does abort
with the clear `keyErrMsg` error — but only after `load_data_sources()` has
fully run: the step trace of the failing run is exactly `[loadSources]`, i.e.
filesystem walking, extraction and web fetching are performed before the
credential check fails, while embedding creation and index building are not.
-/
theorem c1_key_checked_after_loading (N : TextNorm) (split : String → List String)
    (secrets env : List (String × String)) (loaded : List Document)
    (h : falsyKey (get_secret secrets env "OPENAI_API_KEY" none) = true) :
    init_retriever N split (get_secret secrets env "OPENAI_API_KEY" none) loaded
      = ([Step.loadSources], Except.error keyErrMsg) := by
  simp [init_retriever, h]

/--
C1, counterexample to the claim as stated.  The claim requires that no
ingestion work is performed before the credential check fails; but in the
failing run (no key resolved) the step trace contains `loadSources` — the
whole of `load_data_sources()` (walking, extraction, web fetching) runs
before the error is raised, because `initialize_retriever` calls
`load_data_sources()` on its line 130 and checks the key only on line 137.
-/
theorem c1_counterexample :
    (init_retriever N0 split0 none []).2 = Except.error keyErrMsg
    ∧ (init_retriever N0 split0 none []).1 = [Step.loadSources]
    ∧ (init_retriever N0 split0 none []).1 ≠ [] :=
  ⟨rfl, rfl, by decide⟩

/-- C1 witness: the amended theorem applied at an empty secret store and
empty environment. -/
theorem c1_witness :
    init_retriever N0 split0 (get_secret [] [] "OPENAI_API_KEY" none) []
      = ([Step.loadSources], Except.error keyErrMsg) :=
  c1_key_checked_after_loading N0 split0 [] [] [] rfl

/-! ## C2 — numbering of the generic synthesizer's row lines -/

/--
C2, counterexample to the claim as stated.  On a table whose second row is
blank after trimming, the emitted row numbers are `[1, 3]`: 1-based, but not
contiguous — the skipped empty row leaves a gap, because the code numbers by
the original DataFrame index (`index + 1`), not by a counter over emitted
lines.
-/
theorem c2_counterexample :
    genericRowNumbers dfC2 = [1, 3]
    ∧ genericRowNumbers dfC2 ≠ List.range' 1 (genericRowNumbers dfC2).length :=
  ⟨by decide, by decide⟩

/--
C2, amended.  The generic synthesizer's row numbering is 1-based by original
row position (`index + 1`): the emitted numbers are strictly increasing and
lie in `[1, total_rows]`, there is exactly one number per emitted line, and
the numbering is contiguous (`1, 2, 3, ...`) exactly when no row is skipped;
a skipped all-empty row leaves a gap instead.
-/
theorem c2_rowNumbers_strictly_increasing (df : DataFrame) :
    List.Pairwise (· < ·) (genericRowNumbers df)
    ∧ (∀ n ∈ genericRowNumbers df, 1 ≤ n ∧ n ≤ df.rows.length)
    ∧ (genericDataLines df).length = (genericRowNumbers df).length
    ∧ ((∀ r ∈ df.rows, (rowInfoG df.columns r).isEmpty = false) →
        genericRowNumbers df = List.range' 1 df.rows.length) := by
  refine ⟨numberedNums_pairwise _ 0 df.rows, ?_, numberedAux_length _ _ 0 df.rows, ?_⟩
  · intro n hn
    have := numberedNums_bounds _ 0 df.rows n hn
    omega
  · intro hall
    exact numberedNums_complete _ df.rows hall 0

/-- C2 witness: on a table with no empty row, the amended theorem yields the
contiguous numbering `[1, 2]`. -/
theorem c2_witness :
    genericRowNumbers dfW2 = List.range' 1 dfW2.rows.length
    ∧ (1 ∈ genericRowNumbers dfW2 → 1 ≤ 1 ∧ 1 ≤ dfW2.rows.length) :=
  ⟨(c2_rowNumbers_strictly_increasing dfW2).2.2.2 (by decide),
   fun h => (c2_rowNumbers_strictly_increasing dfW2).2.1 1 h⟩

/-! ## C3 — roster synthesizer department groups -/

/--
C3, counterexample to the claim as stated.  On a roster table with the
department column where one row's department cell is NaN, `groupby` drops
that row: the per-department member counts sum to 1 while the table has 2
rows, so the summed counts do not equal the total row count.
-/
theorem c3_counterexample :
    ((deptKeysSorted dfC3).map (fun k => (deptMembers dfC3 k).length)).sum = 1
    ∧ dfC3.rows.length = 2
    ∧ ((deptKeysSorted dfC3).map (fun k => (deptMembers dfC3 k).length)).sum
        ≠ dfC3.rows.length :=
  ⟨by decide, rfl, by decide⟩

/--
C3, amended.  For every roster table with the department column: the emitted
department groups are exactly the distinct non-null department values (no
duplicates, and a key appears iff some row carries it), and the per-department
member counts shown in the group headers sum to the number of rows with a
non-null department value — which equals the total row count only when no
department cell is NaN, since `groupby` silently drops NaN keys.
-/
theorem c3_dept_groups (df : DataFrame) (_hcol : (deptColIdx df).isSome = true) :
    (deptKeysSorted df).Nodup
    ∧ (∀ k, k ∈ deptKeysSorted df ↔ ∃ r ∈ df.rows, deptOf df r = some k)
    ∧ ((deptKeysSorted df).map (fun k => (deptMembers df k).length)).sum
        = df.rows.countP (fun r => (deptOf df r).isSome) := by
  have hperm : (deptKeysSorted df).Perm (uniqueDepts df) := sortStrs_perm _
  have hnd : (uniqueDepts df).Nodup := nodup_uniqFirst _
  refine ⟨hperm.nodup_iff.mpr hnd, ?_, ?_⟩
  · intro k
    rw [hperm.mem_iff]
    simp only [uniqueDepts]
    rw [mem_uniqFirst]
    simp [deptVals, List.mem_filterMap]
  · rw [(hperm.map (fun k => (deptMembers df k).length)).sum_eq]
    have hcov : ∀ r ∈ df.rows, ∀ b, deptOf df r = some b → b ∈ uniqueDepts df := by
      intro r hr b hb
      simp only [uniqueDepts]
      rw [mem_uniqFirst]
      exact List.mem_filterMap.mpr ⟨r, hr, hb⟩
    simpa [deptMembers] using
      sum_group_lengths (deptOf df) (uniqueDepts df) hnd df.rows hcov

/-- C3 witness: on a NaN-free two-department roster the amended theorem gives
nodup keys and counts summing to the non-null count (= 3). -/
theorem c3_witness :
    (deptKeysSorted dfW3).Nodup
    ∧ ((deptKeysSorted dfW3).map (fun k => (deptMembers dfW3 k).length)).sum
        = dfW3.rows.countP (fun r => (deptOf dfW3 r).isSome) :=
  ⟨(c3_dept_groups dfW3 (by decide)).1, (c3_dept_groups dfW3 (by decide)).2.2⟩

/-! ## C4 — web fetch failures are not isolated -/

/--
C4: the per-URL isolation the spec requires is absent from the code.  With
two configured URLs where the first fetch raises, the unguarded loop of
`load_data_sources` propagates the exception: the whole web phase (and the
whole function) aborts, and the second URL's document — which the loop would
have returned had the failing URL been absent (third conjunct) — never
appears in the output.
-/
theorem c4_web_fetch_not_isolated :
    load_web_docs [Except.error "HTTPError", Except.ok [dWeb]] = Except.error "HTTPError"
    ∧ load_data_sources [] [] [Except.error "HTTPError", Except.ok [dWeb]]
        = Except.error "HTTPError"
    ∧ load_web_docs [Except.ok [dWeb]] = Except.ok [dWeb] :=
  ⟨rfl, rfl, by simp [load_web_docs]⟩

/-! ## C5 — generic synthesizer line counts versus declared counts -/

/--
C5, confirmed.  The number of per-row lines the generic synthesizer emits
equals the number of rows with at least one present cell (non-null and
non-empty after trimming); meanwhile the declared record-count line (index 1
of the passage's parts) and the `total_rows` metadata value both report the
full row count, unaffected by skipped empty rows.
-/
theorem c5_generic_line_count (df : DataFrame) (file_name path : String) :
    (genericDataLines df).length
      = df.rows.countP (fun r => (df.columns.zip r).any (fun p => cellPresent p.2))
    ∧ (genericParts df file_name)[1]?
        = some ("データ件数: " ++ toString df.rows.length ++ "件")
    ∧ List.lookup "total_rows" (csvMeta path df.rows.length)
        = some (PyVal.int df.rows.length) :=
  ⟨genericDataLines_length df, rfl, rfl⟩

/-! ## C6 — one whole Document per loaded CSV, bypassing chunking -/

/--
C6, confirmed.  A registered `.csv` file whose read succeeds makes `file_load`
append exactly one Document (and log nothing), with metadata
`file_type = "csv"`, `page = 1`, `total_rows =` the table's row count; and the
chunk-or-bypass stage appends the (normalized) document whole — it is never
handed to the splitter.  The hypothesis `adjStr N "csv" = "csv"` records that
the normalizer leaves the ASCII tag `"csv"` unchanged (true of NFC + cp932 on
every platform).
-/
theorem c6_csv_single_whole_doc (reg : List (String × Capability))
    (f : SrcFile) (df : DataFrame) (cap : Capability) (N : TextNorm)
    (split : String → List String) (pre post : List Document)
    (hreg : List.lookup ".csv" reg = some cap)
    (hext : splitextLower f.path = ".csv")
    (hok : f.csvResult = Except.ok df)
    (hcsv : adjStr N "csv" = "csv") :
    ∃ d₀ : Document,
      file_load reg f = ([d₀], [])
      ∧ List.lookup "file_type" d₀.metadata = some (PyVal.str "csv")
      ∧ List.lookup "page" d₀.metadata = some (PyVal.int 1)
      ∧ List.lookup "total_rows" d₀.metadata = some (PyVal.int df.rows.length)
      ∧ chunkStage split (pre ++ normalizeDoc N d₀ :: post)
          = chunkStage split pre ++ normalizeDoc N d₀ :: chunkStage split post := by
  refine ⟨csvDocument df f.path, ?_, rfl, rfl, rfl, ?_⟩
  · simp [file_load, hext, hreg, hok]
  · have hft : List.lookup "file_type" (normalizeDoc N (csvDocument df f.path)).metadata
        = some (PyVal.str (adjStr N "csv")) := rfl
    rw [hcsv] at hft
    rw [chunkStage_append, chunkStage_cons_csv split _ post hft]

/-- C6 fixtures: a registered `.csv`, a successfully parsed one-row table. -/
def reg6 : List (String × Capability) := [(".csv", Capability.callable)]

def df6 : DataFrame := ⟨["項目"], [[some "広告費"]]⟩

def f6 : SrcFile := ⟨"data/予算.csv", Except.ok df6, Except.ok []⟩

/-- C6 witness: the theorem applied to a concrete registered CSV file. -/
theorem c6_witness :
    ∃ d₀ : Document,
      file_load reg6 f6 = ([d₀], [])
      ∧ List.lookup "file_type" d₀.metadata = some (PyVal.str "csv")
      ∧ List.lookup "page" d₀.metadata = some (PyVal.int 1)
      ∧ List.lookup "total_rows" d₀.metadata = some (PyVal.int df6.rows.length)
      ∧ chunkStage split0 ([] ++ normalizeDoc N0 d₀ :: [])
          = chunkStage split0 [] ++ normalizeDoc N0 d₀ :: chunkStage split0 [] :=
  c6_csv_single_whole_doc reg6 f6 df6 Capability.callable N0 split0 [] []
    rfl (by decide) rfl rfl

/-! ## C7 — per-file extraction failures are isolated -/

/--
C7, confirmed.  When a file's extraction raises — a registered `.csv` whose
read fails, or a registered non-CSV extension with a callable loader whose
`load()` fails — the exception is caught at that file's scope: `file_load`
appends no document and emits exactly one error-log line, that line is the
formatted message carrying the file's path, and in a run the remaining files'
documents and logs are exactly those the run would produce without the failing
file's contribution.
-/
theorem c7_extraction_failure_isolated (reg : List (String × Capability)) (f : SrcFile)
    (e : String) (pre post : List SrcFile)
    (h : (splitextLower f.path = ".csv" ∧ (∃ cap, List.lookup ".csv" reg = some cap)
            ∧ f.csvResult = Except.error e)
       ∨ (¬splitextLower f.path = ".csv"
            ∧ List.lookup (splitextLower f.path) reg = some Capability.callable
            ∧ f.loadResult = Except.error e)) :
    ∃ m : String,
      file_load reg f = ([], [m])
      ∧ (m = csvErrMsg f.path e ∨ m = fileErrMsg f.path e)
      ∧ runFiles reg (pre ++ f :: post)
          = ((runFiles reg pre).1 ++ (runFiles reg post).1,
             (runFiles reg pre).2 ++ m :: (runFiles reg post).2) := by
  have hfl : ∃ m, file_load reg f = ([], [m])
      ∧ (m = csvErrMsg f.path e ∨ m = fileErrMsg f.path e) := by
    rcases h with ⟨hext, ⟨cap, hreg⟩, herr⟩ | ⟨hne, hreg, herr⟩
    · refine ⟨csvErrMsg f.path e, ?_, Or.inl rfl⟩
      simp [file_load, hext, hreg, herr]
    · refine ⟨fileErrMsg f.path e, ?_, Or.inr rfl⟩
      simp [file_load, hreg, hne, herr]
  obtain ⟨m, hm, htag⟩ := hfl
  refine ⟨m, hm, htag, ?_⟩
  have h1 : runFiles reg (f :: post)
      = ([] ++ (runFiles reg post).1, [m] ++ (runFiles reg post).2) := by
    simp [runFiles, hm]
  rw [runFiles_append, h1]
  simp

/-- C7 fixtures: a registered `.csv` whose read raises. -/
def reg7 : List (String × Capability) := [(".csv", Capability.callable)]

def f7 : SrcFile := ⟨"docs/broken.csv", Except.error "UnicodeDecodeError", Except.ok []⟩

/-- C7 witness: the theorem applied to a concrete malformed CSV. -/
theorem c7_witness :
    ∃ m : String,
      file_load reg7 f7 = ([], [m])
      ∧ (m = csvErrMsg f7.path "UnicodeDecodeError"
          ∨ m = fileErrMsg f7.path "UnicodeDecodeError")
      ∧ runFiles reg7 ([] ++ f7 :: [])
          = ((runFiles reg7 []).1 ++ (runFiles reg7 []).1,
             (runFiles reg7 []).2 ++ m :: (runFiles reg7 []).2) :=
  c7_extraction_failure_isolated reg7 f7 "UnicodeDecodeError" [] []
    (Or.inl ⟨by decide, ⟨Capability.callable, rfl⟩, rfl⟩)

/-! ## C8 — unregistered extensions skip; non-callable capabilities log -/

/-- C8 fixtures: registry and files for witness and counterexample. -/
def regC8 : List (String × Capability) := [(".csv", Capability.notCallable)]

def dfC8 : DataFrame := ⟨["metric"], [[some "42"]]⟩

def fC8 : SrcFile := ⟨"report.csv", Except.ok dfC8, Except.ok []⟩

def regW8 : List (String × Capability) := [(".pdf", Capability.notCallable)]

def fSkip8 : SrcFile := ⟨"c.docx", Except.ok dfC8, Except.ok []⟩

def fPdf8 : SrcFile := ⟨"m.pdf", Except.ok dfC8, Except.ok []⟩

/--
C8, counterexample to the claim as stated.  The claim asserts that every
extension present in the table with a non-callable capability logs exactly one
error; but `.csv` is special-cased before the capability is consulted: with
`.csv` registered as non-callable and a readable CSV file, `file_load`
produces a document and logs nothing.
-/
theorem c8_counterexample :
    List.lookup (splitextLower fC8.path) regC8 = some Capability.notCallable
    ∧ (file_load regC8 fC8).2 = []
    ∧ (file_load regC8 fC8).1.length = 1 :=
  ⟨by decide, by decide, by decide⟩

/--
C8, amended.  A file whose lowercased extension is absent from the table is
silently skipped: zero documents, zero log entries, and the run over the other
files is literally unchanged.  A file whose extension is present with a
non-callable capability — for any extension other than the special-cased
`.csv`, whose registered value is never consulted — logs exactly one error
naming the extension and path, contributes no document, and the run continues.
-/
theorem c8_registry_dispatch (reg : List (String × Capability)) (f : SrcFile) :
    (List.lookup (splitextLower f.path) reg = none →
      file_load reg f = ([], [])
      ∧ ∀ pre post, runFiles reg (pre ++ f :: post) = runFiles reg (pre ++ post))
    ∧ (¬splitextLower f.path = ".csv" →
      List.lookup (splitextLower f.path) reg = some Capability.notCallable →
      file_load reg f = ([], [loaderErrMsg (splitextLower f.path) f.path])) := by
  constructor
  · intro hnone
    have hfl : file_load reg f = ([], []) := by simp [file_load, hnone]
    refine ⟨hfl, ?_⟩
    intro pre post
    rw [runFiles_append, runFiles_append]
    have h1 : runFiles reg (f :: post)
        = ([] ++ (runFiles reg post).1, [] ++ (runFiles reg post).2) := by
      simp [runFiles, hfl]
    rw [h1]
    simp
  · intro hne hnc
    simp [file_load, hnc, hne]

/-- C8 witness: a `.docx` file with no registry entry is silently skipped; a
`.pdf` file with a non-callable capability logs exactly one error. -/
theorem c8_witness :
    file_load regW8 fSkip8 = ([], [])
    ∧ file_load regW8 fPdf8 = ([], [loaderErrMsg ".pdf" "m.pdf"]) :=
  ⟨((c8_registry_dispatch regW8 fSkip8).1 (by decide)).1,
   (c8_registry_dispatch regW8 fPdf8).2 (by decide) (by decide)⟩

/-! ## C9 — every output document is normalized -/

/--
C9, confirmed.  Every Document in the pipeline's final output — whole tabular
documents and chunks alike — has normalized content and normalized metadata
values: applying the Text Normalizer again returns each unchanged.  The
hypotheses record the external collaborators' contracts: `h2` is the Unicode
fact that cp932-filtering an NFC string leaves it in NFC (so `adjStr` is
idempotent), and `h3` that the splitter's chunks of a normalized string are
normalized (chunks are newline-joined fragments of their input, and cp932
text filtered from NFC output stays NFC under such splitting).
-/
theorem c9_output_normalized (N : TextNorm) (split : String → List String)
    (key : String) (loaded : List Document)
    (h2 : ∀ s, N.nfc (cpFilter N (N.nfc s)) = cpFilter N (N.nfc s))
    (h3 : ∀ s, adjStr N s = s → ∀ c ∈ split s, adjStr N c = c)
    (hkey : falsyKey (some key) = false) :
    (init_retriever N split (some key) loaded).2
      = Except.ok (chunkStage split (normalizeAll N loaded))
    ∧ ∀ d ∈ chunkStage split (normalizeAll N loaded),
        adjStr N d.page_content = d.page_content
        ∧ ∀ k v, List.lookup k d.metadata = some v → adjust_string N v = v := by
  constructor
  · simp [init_retriever, hkey]
  · intro d hd
    have hin : ∀ x ∈ normalizeAll N loaded,
        adjStr N x.page_content = x.page_content
        ∧ ∀ q ∈ x.metadata, adjust_string N q.2 = q.2 := by
      intro x hx
      rcases List.mem_map.mp hx with ⟨x₀, _, he⟩
      subst he
      exact ⟨adjStr_idem N h2 _, normalizeDoc_metaFix N h2 x₀⟩
    have hmain := chunkStage_fix N split h3 (normalizeAll N loaded) hin d hd
    refine ⟨hmain.1, ?_⟩
    intro k v hv
    obtain ⟨q, hq, hqv⟩ := lookup_mem hv
    exact hqv ▸ hmain.2 q hq

/-- C9 fixture: a document already carrying the csv tag. -/
def dW9 : Document := ⟨"本文テキスト", [("file_type", PyVal.str "csv"), ("page", PyVal.int 1)]⟩

/-- C9 witness: the theorem applied on the identity platform to a one-document
load; the csv document survives whole and its content is a fixed point. -/
theorem c9_witness :
    adjStr N0 dW9.page_content = dW9.page_content :=
  ((c9_output_normalized N0 split0 "sk-test" [dW9]
      (fun _ => rfl) (fun _ _ _ _ => rfl) rfl).2 dW9 (by decide)).1

/-! ## C10 — the Text Normalizer is idempotent -/

/--
C10, confirmed.  `adjust_string` is idempotent on every value: non-strings
pass through unchanged on both applications, and on the string path the
windows branch satisfies `filter ∘ nfc ∘ filter ∘ nfc = filter ∘ nfc` given
`h2`, the Unicode fact — quoted by the spec as "decoded back to a
normalized-form string" — that the cp932 filter of an NFC string is NFC-stable
(cp932 contains no combining characters, no Hangul jamo, and no
canonically-decomposable character that survives NFC), plus idempotence of
the character filter itself.
-/
theorem c10_adjust_string_idempotent (N : TextNorm)
    (h2 : ∀ s, N.nfc (cpFilter N (N.nfc s)) = cpFilter N (N.nfc s)) (v : PyVal) :
    adjust_string N (adjust_string N v) = adjust_string N v :=
  adjust_string_idem N h2 v

/-- C10 witness: idempotence at a concrete Windows-like platform (identity
NFC, ASCII repertoire), on a string with a dropped non-ASCII character and on
an integer. -/
theorem c10_witness :
    adjust_string NW (adjust_string NW (PyVal.str "Čapek123"))
      = adjust_string NW (PyVal.str "Čapek123")
    ∧ adjust_string NW (adjust_string NW (PyVal.int 7))
      = adjust_string NW (PyVal.int 7) :=
  ⟨c10_adjust_string_idempotent NW (fun _ => rfl) (PyVal.str "Čapek123"),
   c10_adjust_string_idempotent NW (fun _ => rfl) (PyVal.int 7)⟩
